import Mathlib

/-!
Verification of the kabu stock-screening batch job (`src/main_git.py`).

The script fetches a ticker universe from JPX, concurrently fetches per-ticker
fundamentals via yfinance, filters by ROE/PER/PBR thresholds, merges with
ticker names, writes a CSV, and sends an email.  We embed the pipeline
shallowly: numeric fields are rationals, failing network calls are `Except`,
the thread pool becomes (a) a permuted completion order for result equivalence
and (b) a small step relation for the temporal collection claims, and the whole
program becomes a pure function from its external inputs to an effect record.
-/

namespace Kabu

abbrev Ticker := String
abbrev Err := String

/-- The fundamentals returned by `yf.Ticker(t).info`, restricted to the three
fields the script reads (`info.get` returns `None` when a field is absent). -/
structure Info where
  returnOnEquity : Option ℚ
  trailingPE : Option ℚ
  priceToBook : Option ℚ
deriving DecidableEq, Repr

/-- The ROE threshold, `roe_threshold = 10` (main_git.py line 46). -/
def roe_threshold : ℚ := 10

/-- The PER threshold, `per_threshold = 15` (main_git.py line 47). -/
def per_threshold : ℚ := 15

/-- The PBR threshold, `pbr_threshold = 1` (main_git.py line 48). -/
def pbr_threshold : ℚ := 1

/-- The dict returned for a matching ticker (main_git.py lines 65-70). -/
structure Row where
  ticker : Ticker
  pbr : ℚ
  per : ℚ
  roe : ℚ
deriving DecidableEq, Repr

/-- The function `fetch_and_filter` (main_git.py lines 50-73).  The per-ticker network fetch
is a parameter `fetch`; any exception it raises becomes `.error`, which the
`try/except` swallows into `None`.  `roe` is scaled by 100 when present, then
the three-field presence check runs, then the threshold check. -/
def fetch_and_filter (fetch : Ticker → Except Err Info) (ticker : Ticker) :
    Option Row :=
  match fetch ticker with
  | .error _ => none
  | .ok info =>
    let roe : Option ℚ := match info.returnOnEquity with
      | some r => some (r * 100)
      | none => none
    let per : Option ℚ := info.trailingPE
    let pbr : Option ℚ := info.priceToBook
    match roe, per, pbr with
    | some roe, some per, some pbr =>
      if roe > roe_threshold ∧ per < per_threshold ∧ pbr < pbr_threshold then
        some { ticker := ticker, pbr := pbr, per := per, roe := roe }
      else
        none
    | _, _, _ => none

/-- The `filtered_stocks` collection loop (main_git.py lines 76-85): iterate
over completed futures in some order and append each truthy result.  The order
argument is the order in which `as_completed` yields the futures. -/
def filtered_stocks (fetch : Ticker → Except Err Info)
    (completionOrder : List Ticker) : List Row :=
  completionOrder.foldl
    (fun acc t =>
      match fetch_and_filter fetch t with
      | some r => acc ++ [r]
      | none => acc)
    []

/-- Sequential reference run: apply `fetch_and_filter` to each ticker in list
order and keep the non-null results. -/
def sequentialRun (fetch : Ticker → Except Err Info)
    (tickers : List Ticker) : List Row :=
  tickers.filterMap (fetch_and_filter fetch)

/-- A row of the JPX ticker spreadsheet, restricted to the columns the script
reads: コード (code), 市場・商品区分 (market segment), 銘柄名 (name). -/
structure TickerRow where
  code : String
  market : String
  name : String
deriving DecidableEq, Repr

/-- The list `target_markets` (main_git.py line 36). -/
def target_markets : List String :=
  ["プライム（内国株式）", "スタンダード（内国株式）", "グロース（内国株式）"]

/-- Python `str.zfill(4)` on a digit string: left-pad with zeros to length 4
(main_git.py line 38). -/
def zfill4 (s : String) : String :=
  if s.length < 4 then String.mk (List.replicate (4 - s.length) '0') ++ s else s

/-- The table `df_tickers` after market filtering and zero-padding (lines 36-38). -/
def df_tickers_filtered (rows : List TickerRow) : List TickerRow :=
  (rows.filter (fun r => decide (r.market ∈ target_markets))).map
    (fun r => { r with code := zfill4 r.code })

/-- The list `ticker_list = df_tickers["コード"] + ".T"` (line 39). -/
def ticker_list (rows : List TickerRow) : List Ticker :=
  (df_tickers_filtered rows).map (fun r => r.code ++ ".T")

/-- A row of `merged_df` after the column selection `["Ticker", "銘柄名",
"PBR", "PER", "ROE"]` (line 99).  `name := none` models the NaN produced by an
unmatched left join. -/
structure MergedRow where
  ticker : Ticker
  name : Option String
  pbr : ℚ
  per : ℚ
  roe : ℚ
deriving DecidableEq, Repr

/-- The CSV column header (line 99 fixes the column order written at line 100). -/
def csvHeader : List String := ["Ticker", "銘柄名", "PBR", "PER", "ROE"]

/-- The CSV file written to `output_path`: header plus data rows. -/
structure CsvFile where
  header : List String
  rows : List MergedRow
deriving DecidableEq, Repr

/-- The join `pd.merge(df_filtered, df_tickers[["コード", "銘柄名"]], left_on=key,
right_on="コード", how="left")` with `key = Ticker` minus `".T"`, then the
column selection (lines 91-99).  A left join keeps every left row: with no
matching code the name is NaN (`none`); with several matches the row is
duplicated per match. -/
def merge_with_names (filtered : List Row) (dfTickers : List TickerRow) :
    List MergedRow :=
  filtered.flatMap (fun row =>
    let key := row.ticker.replace ".T" ""
    match dfTickers.filter (fun t => t.code == key) with
    | [] =>
      [{ ticker := row.ticker, name := none, pbr := row.pbr, per := row.per,
         roe := row.roe }]
    | m :: ms =>
      (m :: ms).map (fun t =>
        { ticker := row.ticker, name := some t.name, pbr := row.pbr,
          per := row.per, roe := row.roe }))

/-- The frame `df_filtered` is nonempty iff any result passed; the CSV is written only
then (lines 90-104). -/
def csvOutput (rows : List TickerRow) (fetch : Ticker → Except Err Info)
    (completionOrder : List Ticker) : Option CsvFile :=
  let filtered := filtered_stocks fetch completionOrder
  if filtered.isEmpty then none
  else
    some { header := csvHeader,
           rows := merge_with_names filtered (df_tickers_filtered rows) }

/-- Python truthiness of `os.environ.get("...")`: an unset variable gives
`None` (falsy) and an empty string is also falsy (line 107 tests
`if GMAIL_USER and GMAIL_PASSWORD`). -/
def truthy : Option String → Bool
  | none => false
  | some s => s != ""

/-- One line of the pandas `to_string` rendering of a merged row (line 118). -/
def renderRow (r : MergedRow) : String :=
  r.ticker ++ " " ++ (match r.name with | some n => n | none => "NaN") ++ " " ++
    toString r.pbr ++ " " ++ toString r.per ++ " " ++ toString r.roe

/-- The pandas `to_string(index=False)` rendering of the first rows. -/
def renderTable (rows : List MergedRow) : String :=
  String.intercalate "\x0a" (rows.map renderRow)

/-- The email body (lines 114-119): a greeting, then either the no-match
message or the first five rows plus a pointer to the attachment. -/
def emailBody (merged_df : List MergedRow) : String :=
  let base := "本日のスクリーニング結果です。\x0a\x0a"
  if merged_df.isEmpty then
    base ++ "該当銘柄はありませんでした。"
  else
    base ++ renderTable (merged_df.take 5) ++ "\x0a\x0a※全データは添付CSVを参照"

/-- The MIME message assembled at lines 109-127. -/
structure Email where
  subject : String
  sender : String
  recipient : String
  body : String
  attachment : Option CsvFile
deriving DecidableEq, Repr

/-- The externally visible effects of one run of the script. -/
structure ProgramResult where
  screened : Bool
  csv : Option CsvFile
  emailSent : Option Email
  emailErrorLogged : Bool
deriving DecidableEq, Repr

/-- The whole pipeline (main_git.py lines 30-139) as a function of its
external inputs: `tickerFetch` is the JPX spreadsheet download (line 35, any
exception aborts the run at line 43), `fetch` the per-ticker yfinance call,
`gmailUser`/`gmailPassword` the two environment variables, `completionOrder`
the order in which `as_completed` yields the futures, and `sendOk` whether the
SMTP connect/login/send at lines 130-134 succeeds or raises. -/
def runProgram (dateStr : String) (tickerFetch : Except Err (List TickerRow))
    (fetch : Ticker → Except Err Info)
    (gmailUser gmailPassword : Option String)
    (completionOrder : List Ticker) (sendOk : Bool) : ProgramResult :=
  match tickerFetch with
  | .error _ =>
    { screened := false, csv := none, emailSent := none,
      emailErrorLogged := false }
  | .ok rows =>
    let csv := csvOutput rows fetch completionOrder
    let merged_df : List MergedRow :=
      match csv with
      | some f => f.rows
      | none => []
    if truthy gmailUser && truthy gmailPassword then
      let attachment : Option CsvFile :=
        if merged_df.isEmpty then none else csv
      let msg : Email :=
        { subject := "【株価スクリーニング】" ++ dateStr
          sender := gmailUser.getD ""
          recipient := gmailUser.getD ""
          body := emailBody merged_df
          attachment := attachment }
      if sendOk then
        { screened := true, csv := csv, emailSent := some msg,
          emailErrorLogged := false }
      else
        { screened := true, csv := csv, emailSent := none,
          emailErrorLogged := true }
    else
      { screened := true, csv := csv, emailSent := none,
        emailErrorLogged := false }

/-- Events of the worker-pool stage (lines 80-100): a submitted future
finishing, the collection loop consuming one future's result
(`future.result()` after `as_completed` yields it), and the CSV write that
follows the `with` block. -/
inductive PoolEvent where
  | complete (i : ℕ)
  | collect (i : ℕ)
  | csvWrite
deriving DecidableEq, Repr

/-- The observable scheduling state of the pool stage for the `n` submitted
futures (indexed `0..n-1`). -/
structure PoolState where
  completed : List ℕ
  collected : List ℕ
  csvWritten : Bool
deriving DecidableEq, Repr

/-- Before the `with` block: nothing finished, nothing consumed, no file. -/
def initPool : PoolState :=
  { completed := [], collected := [], csvWritten := false }

/-- One scheduler step of the pool stage.  A future finishes at most once, at
any time.  The loop consumes a future's result only after that future has
finished (`as_completed` yields a future only on completion, and
`future.result()` then returns without blocking) and only while the loop is
still running, i.e. before the CSV write.  The CSV write (line 100) happens
after the `with` block, hence only once the loop has consumed all `n`
futures; the executor shutdown also waits for every future, so no future is
cancelled. -/
def poolStep (n : ℕ) (s : PoolState) : PoolEvent → Option PoolState
  | .complete i =>
    if i < n ∧ i ∉ s.completed then
      some { s with completed := i :: s.completed }
    else none
  | .collect i =>
    if i ∈ s.completed ∧ i ∉ s.collected ∧ s.csvWritten = false then
      some { s with collected := i :: s.collected }
    else none
  | .csvWrite =>
    if s.collected.length = n ∧ s.csvWritten = false then
      some { s with csvWritten := true }
    else none

/-- Run a sequence of pool events from a state; an impossible event fails. -/
def poolRun (n : ℕ) (s : PoolState) : List PoolEvent → Option PoolState
  | [] => some s
  | e :: es =>
    match poolStep n s e with
    | none => none
    | some s2 => poolRun n s2 es

/-- The safety invariant of the pool stage: consumed results come from
finished futures, no result is consumed twice, only submitted futures finish,
and the CSV exists only once all `n` results were consumed. -/
def PoolInv (n : ℕ) (s : PoolState) : Prop :=
  (∀ i ∈ s.collected, i ∈ s.completed) ∧
  s.collected.Nodup ∧
  (∀ i ∈ s.completed, i < n) ∧
  (s.csvWritten = true → s.collected.length = n)

/-- A fetch answering every ticker with fundamentals passing all three
thresholds (used to instantiate theorems at a concrete input). -/
def fetchPass : Ticker → Except Err Info :=
  fun _ =>
    .ok { returnOnEquity := some 1, trailingPE := some 10,
          priceToBook := some (1/2) }

/-- A fetch whose fundamentals lack the `returnOnEquity` field. -/
def fetchNoRoe : Ticker → Except Err Info :=
  fun _ =>
    .ok { returnOnEquity := none, trailingPE := some 10,
          priceToBook := some (1/2) }

/-- A fetch that raises on every ticker. -/
def fetchRaise : Ticker → Except Err Info :=
  fun _ => .error "HTTPError"

/-- A one-row ticker table for concrete runs. -/
def sampleTickerTable : List TickerRow :=
  [{ code := "1234", market := "プライム（内国株式）", name := "テスト" }]

/-- The merged CSV a credentialed run over `sampleTickerTable` with
`fetchPass` produces. -/
def sampleCsv : CsvFile :=
  { header := csvHeader,
    rows := [{ ticker := "1234.T", name := some "テスト", pbr := 1/2,
               per := 10, roe := 1 * 100 }] }

/-- The pool state after two submitted futures both finished, both results
were consumed, and the CSV write happened. -/
def samplePoolState : PoolState :=
  { completed := [1, 0], collected := [0, 1], csvWritten := true }

/- ------------------------------------------------------------------ -/
/- Theorems                                                           -/
/- ------------------------------------------------------------------ -/

theorem filtered_stocks_eq_filterMap (fetch : Ticker → Except Err Info)
    (order : List Ticker) :
    filtered_stocks fetch order = order.filterMap (fetch_and_filter fetch) := by
  suffices h : ∀ acc : List Row,
      order.foldl
        (fun acc t =>
          match fetch_and_filter fetch t with
          | some r => acc ++ [r]
          | none => acc)
        acc = acc ++ order.filterMap (fetch_and_filter fetch) by
    simpa [filtered_stocks] using h []
  induction order with
  | nil => intro acc; simp
  | cons t ts ih =>
    intro acc
    cases h : fetch_and_filter fetch t with
    | none => simp [List.filterMap_cons, h, ih]
    | some r => simp [List.filterMap_cons, h, ih]

theorem replace_1234T : ("1234.T" : String).replace ".T" "" = "1234" := by
  with_unfolding_all decide

theorem poolInv_init (n : ℕ) : PoolInv n initPool := by
  refine ⟨?_, ?_, ?_, ?_⟩ <;> simp [initPool]

theorem poolInv_step (n : ℕ) (s s2 : PoolState) (e : PoolEvent)
    (hstep : poolStep n s e = some s2) (hinv : PoolInv n s) : PoolInv n s2 := by
  obtain ⟨h1, h2, h3, h4⟩ := hinv
  cases e with
  | complete i =>
    simp only [poolStep] at hstep
    split at hstep
    · cases hstep
      rename_i hc
      refine ⟨?_, h2, ?_, ?_⟩
      · intro j hj
        exact List.mem_cons_of_mem _ (h1 j hj)
      · intro j hj
        rcases List.mem_cons.mp hj with h | h
        · exact h ▸ hc.1
        · exact h3 j h
      · exact h4
    · cases hstep
  | collect i =>
    simp only [poolStep] at hstep
    split at hstep
    · cases hstep
      rename_i hc
      refine ⟨?_, ?_, h3, ?_⟩
      · intro j hj
        rcases List.mem_cons.mp hj with h | h
        · exact h ▸ hc.1
        · exact h1 j h
      · exact List.nodup_cons.mpr ⟨hc.2.1, h2⟩
      · intro hcsv
        exact absurd hcsv (by simp [hc.2.2])
    · cases hstep
  | csvWrite =>
    simp only [poolStep] at hstep
    split at hstep
    · cases hstep
      rename_i hc
      exact ⟨h1, h2, h3, fun _ => hc.1⟩
    · cases hstep

theorem poolInv_run (n : ℕ) (events : List PoolEvent) (s s2 : PoolState)
    (hrun : poolRun n s events = some s2) (hinv : PoolInv n s) :
    PoolInv n s2 := by
  induction events generalizing s with
  | nil => cases hrun; exact hinv
  | cons e es ih =>
    simp only [poolRun] at hrun
    cases hstep : poolStep n s e with
    | none => rw [hstep] at hrun; cases hrun
    | some s1 =>
      rw [hstep] at hrun
      exact ih s1 hrun (poolInv_step n s s1 e hstep hinv)

/-- A duplicate-free list of naturals below `n` with `n` entries contains
every natural below `n`. -/
theorem nodup_length_complete (n : ℕ) (l : List ℕ) (hnd : l.Nodup)
    (hlt : ∀ i ∈ l, i < n) (hlen : l.length = n) : ∀ i, i < n → i ∈ l := by
  intro i hi
  have hsub : l.toFinset ⊆ Finset.range n := by
    intro j hj
    exact Finset.mem_range.mpr (hlt j (List.mem_toFinset.mp hj))
  have hcard : (Finset.range n).card ≤ l.toFinset.card := by
    rw [Finset.card_range, List.toFinset_card_of_nodup hnd, hlen]
  have : l.toFinset = Finset.range n :=
    Finset.eq_of_subset_of_card_le hsub hcard
  exact List.mem_toFinset.mp (this ▸ Finset.mem_range.mpr hi)

/-- The CSV effect does not depend on the credentials or the SMTP outcome. -/
theorem runProgram_eq_csv (dateStr : String)
    (tickerFetch : Except Err (List TickerRow))
    (fetch : Ticker → Except Err Info) (u p : Option String)
    (order : List Ticker) (so : Bool) :
    (runProgram dateStr tickerFetch fetch u p order so).csv =
      match tickerFetch with
      | .error _ => none
      | .ok rows => csvOutput rows fetch order := by
  cases tickerFetch with
  | error e => rfl
  | ok rows =>
    simp only [runProgram]
    cases htu : truthy u && truthy p <;> cases so <;> simp

/-- The screening stage runs exactly when the ticker-list fetch succeeded. -/
theorem runProgram_eq_screened (dateStr : String)
    (tickerFetch : Except Err (List TickerRow))
    (fetch : Ticker → Except Err Info) (u p : Option String)
    (order : List Ticker) (so : Bool) :
    (runProgram dateStr tickerFetch fetch u p order so).screened =
      match tickerFetch with
      | .error _ => false
      | .ok _ => true := by
  cases tickerFetch with
  | error e => rfl
  | ok rows =>
    simp only [runProgram]
    cases htu : truthy u && truthy p <;> cases so <;> simp

/-- A successful credentialed run, unfolded. -/
theorem runProgram_ok_send (dateStr : String) (rows : List TickerRow)
    (fetch : Ticker → Except Err Info) (u p : Option String)
    (order : List Ticker) (hu : truthy u = true) (hp : truthy p = true) :
    runProgram dateStr (.ok rows) fetch u p order true =
      { screened := true, csv := csvOutput rows fetch order,
        emailSent := some
          { subject := "【株価スクリーニング】" ++ dateStr
            sender := u.getD ""
            recipient := u.getD ""
            body := emailBody
              (match csvOutput rows fetch order with
                | some f => f.rows
                | none => [])
            attachment :=
              if (match csvOutput rows fetch order with
                    | some f => f.rows
                    | none => []).isEmpty then none
              else csvOutput rows fetch order },
        emailErrorLogged := false } := by
  simp only [runProgram, hu, hp, Bool.and_self, if_true]

/-- The left join keeps at least one output row per input row. -/
theorem merge_with_names_ne_nil (filtered : List Row)
    (dfTickers : List TickerRow) (h : filtered ≠ []) :
    merge_with_names filtered dfTickers ≠ [] := by
  cases filtered with
  | nil => exact absurd rfl h
  | cons r rs =>
    simp only [merge_with_names, List.flatMap_cons]
    cases hm : dfTickers.filter
        (fun t => t.code == r.ticker.replace ".T" "") with
    | nil => simp
    | cons m ms => simp

/-- C1: for a ticker whose fetched fundamentals contain all three fields, the
filter returns a result row exactly when ROE > 10 and PER < 15 and PBR < 1
(ROE being the percent-scaled `returnOnEquity`), and returns null in every
other case. -/
theorem claim_C1 (fetch : Ticker → Except Err Info) (t : Ticker) (info : Info)
    (r p b : ℚ) (hf : fetch t = .ok info)
    (hr : info.returnOnEquity = some r) (hp : info.trailingPE = some p)
    (hb : info.priceToBook = some b) :
    (fetch_and_filter fetch t =
        some { ticker := t, pbr := b, per := p, roe := r * 100 } ↔
      (r * 100 > roe_threshold ∧ p < per_threshold ∧ b < pbr_threshold)) ∧
    (fetch_and_filter fetch t = none ↔
      ¬(r * 100 > roe_threshold ∧ p < per_threshold ∧ b < pbr_threshold)) := by
  simp only [fetch_and_filter, hf, hr, hp, hb]
  by_cases hc : r * 100 > roe_threshold ∧ p < per_threshold ∧ b < pbr_threshold
  · simp [hc]
  · simp [hc]

theorem claim_C1_witness :
    (fetch_and_filter fetchPass "1234.T" =
        some { ticker := "1234.T", pbr := 1/2, per := 10, roe := 1 * 100 } ↔
      ((1 : ℚ) * 100 > roe_threshold ∧ (10 : ℚ) < per_threshold ∧
        (1/2 : ℚ) < pbr_threshold)) ∧
    (fetch_and_filter fetchPass "1234.T" = none ↔
      ¬((1 : ℚ) * 100 > roe_threshold ∧ (10 : ℚ) < per_threshold ∧
        (1/2 : ℚ) < pbr_threshold)) :=
  claim_C1 fetchPass "1234.T"
    { returnOnEquity := some 1, trailingPE := some 10,
      priceToBook := some (1/2) }
    1 10 (1/2) rfl rfl rfl rfl

/-- C2: a ticker whose fetched fundamentals are missing any one of the three
fields gives a null result, whatever the present fields hold. -/
theorem claim_C2 (fetch : Ticker → Except Err Info) (t : Ticker) (info : Info)
    (hf : fetch t = .ok info)
    (hmiss : info.returnOnEquity = none ∨ info.trailingPE = none ∨
      info.priceToBook = none) :
    fetch_and_filter fetch t = none := by
  cases h1 : info.returnOnEquity <;> cases h2 : info.trailingPE <;>
    cases h3 : info.priceToBook <;>
      simp_all [fetch_and_filter, hf]

theorem claim_C2_witness : fetch_and_filter fetchNoRoe "1234.T" = none :=
  claim_C2 fetchNoRoe "1234.T"
    { returnOnEquity := none, trailingPE := some 10,
      priceToBook := some (1/2) }
    rfl (Or.inl rfl)

/-- C3: a ticker whose fetch raises gives a null result instead of
propagating the exception, and the batch over any ticker list yields exactly
what it would yield with the failing ticker removed: the other tickers'
results are unaffected. -/
theorem claim_C3 (fetch : Ticker → Except Err Info) (t : Ticker) (e : Err)
    (tickers : List Ticker) (hf : fetch t = .error e) :
    fetch_and_filter fetch t = none ∧
      sequentialRun fetch tickers =
        sequentialRun fetch (tickers.filter (fun s => s != t)) := by
  have hnone : fetch_and_filter fetch t = none := by
    simp [fetch_and_filter, hf]
  refine ⟨hnone, ?_⟩
  simp only [sequentialRun]
  induction tickers with
  | nil => rfl
  | cons a as ih =>
    by_cases ha : a = t
    · subst ha
      simp [List.filter_cons, List.filterMap_cons, hnone, ih]
    · simp [List.filter_cons, List.filterMap_cons, bne_iff_ne, ha, ih]

theorem claim_C3_witness :
    fetch_and_filter fetchRaise "1234.T" = none ∧
      sequentialRun fetchRaise ["1234.T", "5678.T"] =
        sequentialRun fetchRaise
          ((["1234.T", "5678.T"] : List Ticker).filter
            (fun s => s != "1234.T")) :=
  claim_C3 fetchRaise "1234.T" "HTTPError" ["1234.T", "5678.T"] rfl

/-- C4: for a fixed fetch, collecting the pool's results in any completion
order yields the same set of rows as the sequential run over the ticker
list. -/
theorem claim_C4 (fetch : Ticker → Except Err Info)
    (tickers order : List Ticker) (hperm : order.Perm tickers) (r : Row) :
    r ∈ filtered_stocks fetch order ↔ r ∈ sequentialRun fetch tickers := by
  rw [filtered_stocks_eq_filterMap]
  exact (hperm.filterMap (fetch_and_filter fetch)).mem_iff

theorem claim_C4_witness :
    ({ ticker := "5678.T", pbr := 1/2, per := 10, roe := 1 * 100 } : Row) ∈
        filtered_stocks fetchPass ["5678.T", "1234.T"] ↔
      ({ ticker := "5678.T", pbr := 1/2, per := 10, roe := 1 * 100 } : Row) ∈
        sequentialRun fetchPass ["1234.T", "5678.T"] :=
  claim_C4 fetchPass ["1234.T", "5678.T"] ["5678.T", "1234.T"]
    (List.Perm.swap "1234.T" "5678.T" [])
    { ticker := "5678.T", pbr := 1/2, per := 10, roe := 1 * 100 }

/-- C5: a failing ticker-list fetch aborts the run before anything happens:
no screening, no CSV, no email. -/
theorem claim_C5 (dateStr : String) (e : Err)
    (fetch : Ticker → Except Err Info) (u p : Option String)
    (order : List Ticker) (so : Bool) :
    runProgram dateStr (.error e) fetch u p order so =
      { screened := false, csv := none, emailSent := none,
        emailErrorLogged := false } := rfl

/-- C6: when the SMTP send raises, the error is logged, no email is recorded
as sent, and the CSV effect is exactly the one of a run whose send succeeds:
the already-written file is untouched. -/
theorem claim_C6 (dateStr : String) (rows : List TickerRow)
    (fetch : Ticker → Except Err Info) (u p : Option String)
    (order : List Ticker) (hu : truthy u = true) (hp : truthy p = true) :
    (runProgram dateStr (.ok rows) fetch u p order false).csv =
        (runProgram dateStr (.ok rows) fetch u p order true).csv ∧
    (runProgram dateStr (.ok rows) fetch u p order false).csv =
        csvOutput rows fetch order ∧
    (runProgram dateStr (.ok rows) fetch u p order false).emailSent = none ∧
    (runProgram dateStr (.ok rows) fetch u p order false).emailErrorLogged =
        true := by
  refine ⟨?_, ?_, ?_, ?_⟩ <;>
    simp [runProgram, hu, hp]

theorem claim_C6_witness :
    (runProgram "20260101" (.ok sampleTickerTable) fetchPass (some "u")
        (some "p") ["1234.T"] false).csv =
      (runProgram "20260101" (.ok sampleTickerTable) fetchPass (some "u")
        (some "p") ["1234.T"] true).csv ∧
    (runProgram "20260101" (.ok sampleTickerTable) fetchPass (some "u")
        (some "p") ["1234.T"] false).csv =
      csvOutput sampleTickerTable fetchPass ["1234.T"] ∧
    (runProgram "20260101" (.ok sampleTickerTable) fetchPass (some "u")
        (some "p") ["1234.T"] false).emailSent = none ∧
    (runProgram "20260101" (.ok sampleTickerTable) fetchPass (some "u")
        (some "p") ["1234.T"] false).emailErrorLogged = true :=
  claim_C6 "20260101" sampleTickerTable fetchPass (some "u") (some "p")
    ["1234.T"] rfl rfl

/-- C7: along every trace of the pool stage, a result is consumed only after
its own future finished, and once the CSV is written every submitted future
has finished and had its result consumed: collection is complete before the
write, and no future is cancelled. -/
theorem claim_C7 (n : ℕ) (events : List PoolEvent) (s : PoolState)
    (hrun : poolRun n initPool events = some s) :
    (∀ i ∈ s.collected, i ∈ s.completed) ∧
    (s.csvWritten = true →
      ∀ i, i < n → i ∈ s.collected ∧ i ∈ s.completed) := by
  have hinv : PoolInv n s := poolInv_run n events initPool s hrun
    (poolInv_init n)
  obtain ⟨h1, h2, h3, h4⟩ := hinv
  refine ⟨h1, ?_⟩
  intro hcsv i hi
  have hlt : ∀ j ∈ s.collected, j < n := fun j hj => h3 j (h1 j hj)
  have hmem : i ∈ s.collected :=
    nodup_length_complete n s.collected h2 hlt (h4 hcsv) i hi
  exact ⟨hmem, h1 i hmem⟩

theorem claim_C7_witness :
    (∀ i ∈ samplePoolState.collected, i ∈ samplePoolState.completed) ∧
    (samplePoolState.csvWritten = true →
      ∀ i, i < 2 →
        i ∈ samplePoolState.collected ∧ i ∈ samplePoolState.completed) :=
  claim_C7 2
    [PoolEvent.complete 0, PoolEvent.complete 1, PoolEvent.collect 1,
      PoolEvent.collect 0, PoolEvent.csvWrite]
    samplePoolState (by decide)

/-- C8 as stated is false: a run can reach the output stage (the screening
ran) with an empty filtered set, and then no CSV file is written and the
email sent carries no attachment.  Here every per-ticker fetch raises, the
screening runs over an empty ticker list, and the credentialed send
succeeds. -/
theorem claim_C8_counterexample :
    (runProgram "20260101" (.ok []) fetchRaise (some "u") (some "p") []
        true).screened = true ∧
    (runProgram "20260101" (.ok []) fetchRaise (some "u") (some "p") []
        true).csv = none ∧
    (runProgram "20260101" (.ok []) fetchRaise (some "u") (some "p") []
        true).emailSent =
      some { subject := "【株価スクリーニング】20260101", sender := "u",
             recipient := "u", body := emailBody [], attachment := none } :=
  ⟨rfl, rfl, rfl⟩

/-- C8 amended: a credentialed run whose send succeeds and that wrote a CSV
(its filtered set was nonempty) produces that one CSV with header (Ticker,
銘柄名, PBR, PER, ROE) and one email whose body is the text summary of the
CSV rows and whose attachment is that CSV file. -/
theorem claim_C8 (dateStr : String) (rows : List TickerRow)
    (fetch : Ticker → Except Err Info) (u p : Option String)
    (order : List Ticker) (hu : truthy u = true) (hp : truthy p = true)
    (f : CsvFile)
    (hcsv : (runProgram dateStr (.ok rows) fetch u p order true).csv =
      some f) :
    f.header = csvHeader ∧
    (runProgram dateStr (.ok rows) fetch u p order true).emailSent =
      some { subject := "【株価スクリーニング】" ++ dateStr,
             sender := u.getD "", recipient := u.getD "",
             body := emailBody f.rows, attachment := some f } := by
  rw [runProgram_eq_csv] at hcsv
  have hout : csvOutput rows fetch order = some f := hcsv
  have hfiltered : ¬(filtered_stocks fetch order).isEmpty = true := by
    intro hempty
    rw [csvOutput] at hout
    simp only [hempty, if_true] at hout
    cases hout
  have hfval : f = CsvFile.mk csvHeader
      (merge_with_names (filtered_stocks fetch order)
        (df_tickers_filtered rows)) := by
    rw [csvOutput] at hout
    simp only [hfiltered, if_false] at hout
    exact (Option.some.inj hout).symm
  have hrows_ne : f.rows ≠ [] := by
    rw [hfval]
    exact merge_with_names_ne_nil _ _
      (fun hnil => hfiltered (by simp [hnil]))
  rw [runProgram_ok_send dateStr rows fetch u p order hu hp]
  refine ⟨by rw [hfval], ?_⟩
  simp only [hout]
  have : f.rows.isEmpty = false := by
    cases hfr : f.rows with
    | nil => exact absurd hfr hrows_ne
    | cons a l => rfl
  simp [this]

theorem claim_C8_witness :
    sampleCsv.header = csvHeader ∧
    (runProgram "20260101" (.ok sampleTickerTable) fetchPass (some "u")
        (some "p") ["1234.T"] true).emailSent =
      some { subject := "【株価スクリーニング】" ++ "20260101",
             sender := (some "u").getD "", recipient := (some "u").getD "",
             body := emailBody sampleCsv.rows,
             attachment := some sampleCsv } :=
  claim_C8 "20260101" sampleTickerTable fetchPass (some "u") (some "p")
    ["1234.T"] rfl rfl sampleCsv
    (by norm_num +decide [runProgram, csvOutput, filtered_stocks,
      fetch_and_filter, fetchPass, merge_with_names, df_tickers_filtered,
      zfill4, truthy, target_markets, sampleTickerTable, sampleCsv,
      roe_threshold, per_threshold, pbr_threshold, replace_1234T,
      List.foldl, List.filter, List.flatMap])

/-- C9: with either credential unset the email step is skipped with no error
logged, while the screening and the CSV are exactly those of a run with any
credentials and any SMTP outcome. -/
theorem claim_C9 (dateStr : String)
    (tickerFetch : Except Err (List TickerRow))
    (fetch : Ticker → Except Err Info) (u p u2 p2 : Option String)
    (order : List Ticker) (so so2 : Bool)
    (hunset : u = none ∨ p = none) :
    (runProgram dateStr tickerFetch fetch u p order so).emailSent = none ∧
    (runProgram dateStr tickerFetch fetch u p order so).emailErrorLogged =
        false ∧
    (runProgram dateStr tickerFetch fetch u p order so).screened =
        (runProgram dateStr tickerFetch fetch u2 p2 order so2).screened ∧
    (runProgram dateStr tickerFetch fetch u p order so).csv =
        (runProgram dateStr tickerFetch fetch u2 p2 order so2).csv := by
  have hfalse : (truthy u && truthy p) = false := by
    rcases hunset with h | h <;> subst h <;> simp [truthy]
  refine ⟨?_, ?_, ?_, ?_⟩
  · cases tickerFetch with
    | error e => rfl
    | ok rows => simp [runProgram, hfalse]
  · cases tickerFetch with
    | error e => rfl
    | ok rows => simp [runProgram, hfalse]
  · rw [runProgram_eq_screened, runProgram_eq_screened]
  · rw [runProgram_eq_csv, runProgram_eq_csv]

theorem claim_C9_witness :
    (runProgram "20260101" (.ok sampleTickerTable) fetchPass none (some "p")
        ["1234.T"] true).emailSent = none ∧
    (runProgram "20260101" (.ok sampleTickerTable) fetchPass none (some "p")
        ["1234.T"] true).emailErrorLogged = false ∧
    (runProgram "20260101" (.ok sampleTickerTable) fetchPass none (some "p")
        ["1234.T"] true).screened =
      (runProgram "20260101" (.ok sampleTickerTable) fetchPass (some "u")
        (some "p") ["1234.T"] true).screened ∧
    (runProgram "20260101" (.ok sampleTickerTable) fetchPass none (some "p")
        ["1234.T"] true).csv =
      (runProgram "20260101" (.ok sampleTickerTable) fetchPass (some "u")
        (some "p") ["1234.T"] true).csv :=
  claim_C9 "20260101" (.ok sampleTickerTable) fetchPass none (some "p")
    (some "u") (some "p") ["1234.T"] true true (Or.inl rfl)

/-- C10: with all three fields present, the value compared against the
threshold and written to the result row is `returnOnEquity * 100`, so the
ticker passes the full filter exactly when the raw `returnOnEquity` exceeds
1/10 (and PER, PBR pass), and any returned row's ROE is the percent-scaled
value. -/
theorem claim_C10 (fetch : Ticker → Except Err Info) (t : Ticker)
    (info : Info) (r p b : ℚ) (hf : fetch t = .ok info)
    (hr : info.returnOnEquity = some r) (hp : info.trailingPE = some p)
    (hb : info.priceToBook = some b) :
    ((fetch_and_filter fetch t).isSome = true ↔
      (r > 1/10 ∧ p < per_threshold ∧ b < pbr_threshold)) ∧
    ∀ row, fetch_and_filter fetch t = some row → row.roe = r * 100 := by
  have key : (r * 100 > roe_threshold) ↔ r > 1/10 := by
    rw [roe_threshold]
    constructor <;> intro h <;> linarith
  simp only [fetch_and_filter, hf, hr, hp, hb]
  by_cases hc : r * 100 > roe_threshold ∧ p < per_threshold ∧ b < pbr_threshold
  · rw [if_pos hc]
    refine ⟨?_, ?_⟩
    · simp only [Option.isSome_some, true_iff]
      exact ⟨key.mp hc.1, hc.2.1, hc.2.2⟩
    · intro row hrow
      cases hrow
      rfl
  · rw [if_neg hc]
    refine ⟨?_, ?_⟩
    · simp only [Option.isSome_none, Bool.false_eq_true, false_iff]
      intro hcon
      exact hc ⟨key.mpr hcon.1, hcon.2.1, hcon.2.2⟩
    · intro row hrow
      cases hrow

theorem claim_C10_witness :
    ((fetch_and_filter fetchPass "1234.T").isSome = true ↔
      ((1 : ℚ) > 1/10 ∧ (10 : ℚ) < per_threshold ∧
        (1/2 : ℚ) < pbr_threshold)) ∧
    ∀ row, fetch_and_filter fetchPass "1234.T" = some row →
      row.roe = 1 * 100 :=
  claim_C10 fetchPass "1234.T"
    { returnOnEquity := some 1, trailingPE := some 10,
      priceToBook := some (1/2) }
    1 10 (1/2) rfl rfl rfl rfl

end Kabu
